import Mathlib

/-!
Shallow embedding of `examples/serde_compat.rs` from the `bitflags` repository:
the legacy serde-compatible wire format for flags types.  The Rust code
serializes a flags value as a struct with a single `bits` field and
deserializes it with a visitor that walks the incoming map, collecting at most
one `bits` field and rejecting duplicates and unknown fields.
-/

namespace SerdeCompat

/-- Decode-side errors, mirroring the `serde::de::Error` constructors the Rust
visitor uses (`duplicate_field`, `unknown_field`, `missing_field`), plus a
`transport` case for failures raised by the underlying framework while reading
a primitive value (`map.next_value()?`). -/
inductive DeError where
  | duplicateField (field : String)
  | unknownField (field : String) (expected : List String)
  | missingField (field : String)
  | transport (msg : String)
deriving DecidableEq, Repr

/-- A field value as presented by the decoding framework: either a raw integer
that reads successfully, or a token whose read fails with a transport error
(modelling that `map.next_value()?` in the Rust code is fallible). -/
inductive ValueTok where
  | val (n : Nat)
  | bad (msg : String)
deriving DecidableEq, Repr

/-- Reading a field value, as `map.next_value()?` does in the Rust code. -/
def readValue : ValueTok → Except DeError Nat
  | .val n => .ok n
  | .bad msg => .error (.transport msg)

/-- A structured wire record: a diagnostic type-name label, a declared field
count, and the ordered sequence of named fields. -/
structure Record where
  label : String
  fieldCount : Nat
  fields : List (String × ValueTok)
deriving DecidableEq, Repr

/-- The concrete flags type of the example (`struct Flags: u32`): a wrapper
around its raw bits.  Claims quantify over bits representable in the u32
storage width via the hypothesis `bits < 2 ^ 32`; the code itself performs no
arithmetic on the bits. -/
structure Flags where
  bits : Nat
deriving DecidableEq, Repr

/-- `Flags::from_bits_retain`: construct a flags value from raw bits without
masking, filtering or rejecting any bit. -/
def from_bits_retain (b : Nat) : Flags := ⟨b⟩

/-- Models `core::any::type_name::<T>()` for the example flags type: the
diagnostic type-name label written on serialize and passed to
`deserialize_struct`. -/
def typeName : String := "Flags"

/-- Flag `A` of the example (`const A = 1`). -/
def Flags.A : Flags := from_bits_retain 1

/-- Flag `B` of the example (`const B = 2`). -/
def Flags.B : Flags := from_bits_retain 2

/-- Flag `C` of the example (`const C = 4`). -/
def Flags.C : Flags := from_bits_retain 4

/-- Flag `D` of the example (`const D = 8`). -/
def Flags.D : Flags := from_bits_retain 8

/-- Bitwise union of flags values, as `bitflags!` generates for `|`:
`Self::from_bits_retain(self.bits() | other.bits())`. -/
def Flags.union (a b : Flags) : Flags := from_bits_retain (Nat.lor a.bits b.bits)

/-- `legacy_format::serialize`: begin a struct record labeled with the flag
type's name, declared to hold one field, write the field `bits` with the full
raw integer, and close the record. -/
def serialize (flags : Flags) : Record :=
  { label := typeName, fieldCount := 1,
    fields := [("bits", ValueTok.val flags.bits)] }

/-- `BitsVisitor::visit_map`: walk the incoming record's fields with an
accumulator that is `none` until a `bits` field has been read.  On `bits` with
the accumulator filled, fail with a duplicate-field error (the duplicate's
value is never read); on `bits` with the accumulator empty, read the value and
store it; on any other field name, fail with an unknown-field error naming the
field and the recognized list `["bits"]`; at end of record, yield the stored
value or fail with a missing-field error. -/
def visit_map : List (String × ValueTok) → Option Nat → Except DeError Nat
  | [], some b => .ok b
  | [], none => .error (.missingField "bits")
  | (k, tok) :: rest, acc =>
    if k = "bits" then
      match acc with
      | some _ => .error (.duplicateField "bits")
      | none =>
        match readValue tok with
        | .error e => .error e
        | .ok b => visit_map rest (some b)
    else
      .error (.unknownField k ["bits"])

/-- `legacy_format::deserialize`: drive the visitor over the record's fields
starting from the empty accumulator, then on success construct the flags value
with `from_bits_retain`. -/
def deserialize (r : Record) : Except DeError Flags :=
  match visit_map r.fields none with
  | .error e => .error e
  | .ok b => .ok (from_bits_retain b)

/-- Helper: when the visitor walk succeeds with value `b`, either the
accumulator already held `b`, or a successfully-read field `("bits", b)`
occurs in the input. -/
theorem visit_map_ok_mem (fields : List (String × ValueTok)) (acc : Option Nat)
    (b : Nat) (h : visit_map fields acc = .ok b) :
    acc = some b ∨ ("bits", ValueTok.val b) ∈ fields := by
  induction fields generalizing acc with
  | nil =>
    cases acc with
    | some c => simp [visit_map] at h; exact Or.inl (by simp [h])
    | none => simp [visit_map] at h
  | cons hd tl ih =>
    obtain ⟨k, tok⟩ := hd
    by_cases hk : k = "bits"
    · subst hk
      cases acc with
      | some c => simp [visit_map] at h
      | none =>
        cases tok with
        | bad msg => simp [visit_map, readValue] at h
        | val n =>
          simp only [visit_map, readValue, if_pos rfl] at h
          rcases ih (some n) h with h1 | h2
          · injection h1 with h1
            subst h1
            exact Or.inr (List.mem_cons_self _ _)
          · exact Or.inr (List.mem_cons_of_mem _ h2)
    · simp [visit_map, hk] at h

/-- Helper: a visitor failure raised at a field (anything but the end-of-record
missing-field error) is unaffected by extending the input with further fields:
the walk stops at the first offense. -/
theorem visit_map_error_append (fields : List (String × ValueTok))
    (acc : Option Nat) (e : DeError) (h : visit_map fields acc = .error e)
    (hne : e ≠ .missingField "bits") (more : List (String × ValueTok)) :
    visit_map (fields ++ more) acc = .error e := by
  induction fields generalizing acc with
  | nil =>
    cases acc with
    | some c => simp [visit_map] at h
    | none => simp [visit_map] at h; exact absurd h.symm hne
  | cons hd tl ih =>
    obtain ⟨k, tok⟩ := hd
    by_cases hk : k = "bits"
    · subst hk
      cases acc with
      | some c => simpa [visit_map] using h
      | none =>
        cases tok with
        | bad msg =>
          simpa [visit_map, readValue] using h
        | val n =>
          simp only [visit_map, readValue, if_pos rfl, List.cons_append] at h ⊢
          exact ih (some n) h
    · simpa [visit_map, hk] using h

/-- C1: for every raw integer `b` representable in the flag type's u32 storage
width, decoding the record produced by encoding `from_bits_retain b` yields a
flags value whose raw bits equal `b` exactly, including bits with no assigned
flag name. -/
theorem roundtrip_identity (b : Nat) (h : b < 2 ^ 32) :
    deserialize (serialize (from_bits_retain b)) = .ok (from_bits_retain b) ∧
    (from_bits_retain b).bits = b :=
  ⟨rfl, rfl⟩

/-- Witness for C1 at a value whose high bits correspond to no named flag. -/
theorem roundtrip_identity_witness :
    2 ^ 31 + 3 < 2 ^ 32 ∧
    (deserialize (serialize (from_bits_retain (2 ^ 31 + 3))) =
        .ok (from_bits_retain (2 ^ 31 + 3)) ∧
      (from_bits_retain (2 ^ 31 + 3)).bits = 2 ^ 31 + 3) :=
  ⟨by norm_num, roundtrip_identity (2 ^ 31 + 3) (by norm_num)⟩

/-- C2: for every flags value, `serialize` emits a record labeled with the flag
type's name, declared to hold exactly one field, whose single field is named
`bits` and carries the value's full raw integer unchanged and unmasked. -/
theorem serialize_record_shape (v : Flags) :
    serialize v =
      { label := typeName, fieldCount := 1,
        fields := [("bits", ValueTok.val v.bits)] } :=
  rfl

/-- C3 counterexample: a record in which the field name `bits` occurs twice,
but which fails with an unknown-field error rather than a duplicate-field
error, because an unknown field precedes the duplicate. -/
theorem duplicate_field_counterexample :
    (([("extra", ValueTok.val 0), ("bits", ValueTok.val 0),
        ("bits", ValueTok.val 0)] : List (String × ValueTok)).map
      Prod.fst).count "bits" = 2 ∧
    deserialize ⟨typeName, 1, [("extra", ValueTok.val 0), ("bits", ValueTok.val 0),
        ("bits", ValueTok.val 0)]⟩ = .error (.unknownField "extra" ["bits"]) ∧
    deserialize ⟨typeName, 1, [("extra", ValueTok.val 0), ("bits", ValueTok.val 0),
        ("bits", ValueTok.val 0)]⟩ ≠ .error (.duplicateField "bits") := by
  refine ⟨by decide, rfl, fun hc => DeError.noConfusion (Except.error.inj hc)⟩

/-- C3 amended: for every record whose fields begin with a successfully-read
`bits` field immediately followed by a second `bits` field — i.e. whenever the
duplicate is the first structural offense — decoding fails with a
duplicate-field error regardless of the duplicate's value, which is never
read, so the first stored value is not overwritten. -/
theorem duplicate_field_rejected (b : Nat) (tok : ValueTok)
    (rest : List (String × ValueTok)) (label : String) (n : Nat) :
    deserialize ⟨label, n, ("bits", ValueTok.val b) :: ("bits", tok) :: rest⟩ =
      .error (.duplicateField "bits") :=
  rfl

/-- C4: on any field whose name is not `bits`, in any visitor state (no matter
what the accumulator holds or what fields follow), the visitor fails with an
unknown-field error identifying the offending name, and so does `deserialize`
on a record starting with such a field — even if a well-formed `bits` field is
also present. -/
theorem unknown_field_rejected (k : String) (tok : ValueTok)
    (rest : List (String × ValueTok)) (acc : Option Nat) (label : String)
    (n : Nat) (hk : k ≠ "bits") :
    visit_map ((k, tok) :: rest) acc = .error (.unknownField k ["bits"]) ∧
    deserialize ⟨label, n, (k, tok) :: rest⟩ =
      .error (.unknownField k ["bits"]) := by
  have h1 : visit_map ((k, tok) :: rest) acc = .error (.unknownField k ["bits"]) := by
    simp [visit_map, hk]
  have h2 : visit_map ((k, tok) :: rest) none = .error (.unknownField k ["bits"]) := by
    simp [visit_map, hk]
  exact ⟨h1, by simp [deserialize, h2]⟩

/-- Witness for C4: an unknown field is rejected by name even though the
accumulator already holds a value and a well-formed `bits` field follows. -/
theorem unknown_field_rejected_witness :
    visit_map [("extra", ValueTok.val 3), ("bits", ValueTok.val 3)] (some 7) =
      .error (.unknownField "extra" ["bits"]) ∧
    deserialize ⟨"Flags", 1, [("extra", ValueTok.val 3), ("bits", ValueTok.val 3)]⟩ =
      .error (.unknownField "extra" ["bits"]) :=
  unknown_field_rejected "extra" (ValueTok.val 3) [("bits", ValueTok.val 3)]
    (some 7) "Flags" 1 (by decide)

/-- C5: a record whose field walk ends without ever providing a `bits` field —
for whole records, exactly the records with zero fields, since any field
either stores `bits` or raises an error before the end — fails decoding with a
missing-field error naming `bits`. -/
theorem missing_field_rejected (r : Record) (h : r.fields = []) :
    deserialize r = .error (.missingField "bits") := by
  simp [deserialize, h, visit_map]

/-- Witness for C5 at the empty record. -/
theorem missing_field_rejected_witness :
    deserialize ⟨"Flags", 1, []⟩ = .error (.missingField "bits") :=
  missing_field_rejected ⟨"Flags", 1, []⟩ rfl

/-- C6: whenever decoding succeeds, the returned flags value is
`from_bits_retain` of the collected integer, the visitor yielded exactly the
returned value's raw bits, and those bits were carried verbatim by a `bits`
field of the input — no bit is dropped, masked, or rejected. -/
theorem deserialize_retains_bits (r : Record) (v : Flags)
    (h : deserialize r = .ok v) :
    v = from_bits_retain v.bits ∧ visit_map r.fields none = .ok v.bits ∧
    ("bits", ValueTok.val v.bits) ∈ r.fields := by
  unfold deserialize at h
  cases hv : visit_map r.fields none with
  | error e => rw [hv] at h; exact absurd h (by simp)
  | ok b =>
    rw [hv] at h
    have hb : from_bits_retain b = v := by
      simpa using h
    subst hb
    refine ⟨rfl, rfl, ?_⟩
    rcases visit_map_ok_mem r.fields none b hv with h1 | h2
    · cases h1
    · exact h2

/-- Witness for C6 at a concrete successful decode. -/
theorem deserialize_retains_bits_witness :
    Flags.mk 3 = from_bits_retain (Flags.mk 3).bits ∧
    visit_map (Record.mk "Flags" 1 [("bits", ValueTok.val 3)]).fields none =
      .ok (Flags.mk 3).bits ∧
    ("bits", ValueTok.val (Flags.mk 3).bits) ∈
      (Record.mk "Flags" 1 [("bits", ValueTok.val 3)]).fields :=
  deserialize_retains_bits ⟨"Flags", 1, [("bits", ValueTok.val 3)]⟩ ⟨3⟩ rfl

/-- C7: the record's type-name label (and declared field count) is write-only
diagnostic metadata — any two records carrying the same field sequence decode
to the same result, whatever their labels. -/
theorem label_is_write_only (r1 r2 : Record) (h : r1.fields = r2.fields) :
    deserialize r1 = deserialize r2 := by
  simp [deserialize, h]

/-- Witness for C7: two records with different labels and field counts but the
same field sequence decode identically. -/
theorem label_is_write_only_witness :
    deserialize ⟨"Flags", 1, [("bits", ValueTok.val 5)]⟩ =
      deserialize ⟨"SomethingElse", 42, [("bits", ValueTok.val 5)]⟩ :=
  label_is_write_only ⟨"Flags", 1, [("bits", ValueTok.val 5)]⟩
    ⟨"SomethingElse", 42, [("bits", ValueTok.val 5)]⟩ rfl

/-- C8: concrete scenario with `A` at bit 0 and `B` at bit 1: encoding `A | B`
produces the structural equivalent of `\x7b"bits": 3\x7d`; decoding it yields
`A | B`; a duplicated `bits` field fails with a duplicate-field error;
`"flags"` fails with an unknown-field error naming `"flags"`; the empty record
fails with a missing-field error. -/
theorem concrete_scenario :
    serialize (Flags.A.union Flags.B) =
      { label := typeName, fieldCount := 1,
        fields := [("bits", ValueTok.val 3)] } ∧
    deserialize ⟨typeName, 1, [("bits", ValueTok.val 3)]⟩ =
      .ok (Flags.A.union Flags.B) ∧
    deserialize ⟨typeName, 1, [("bits", ValueTok.val 3), ("bits", ValueTok.val 3)]⟩ =
      .error (.duplicateField "bits") ∧
    deserialize ⟨typeName, 1, [("flags", ValueTok.val 3)]⟩ =
      .error (.unknownField "flags" ["bits"]) ∧
    deserialize ⟨typeName, 1, []⟩ = .error (.missingField "bits") :=
  ⟨rfl, rfl, rfl, rfl, rfl⟩

/-- C9: the visitor validates fields strictly in input order and fails on the
first offense: a duplicate `bits` key is rejected before its value token is
ever read (even an unreadable token gives the duplicate-field error), and any
failure raised at a field is unchanged by whatever fields follow it, so the
outcome depends only on the input up to and including the first offense. -/
theorem first_offense_determines_outcome (b : Nat) (tok : ValueTok)
    (rest fields more : List (String × ValueTok)) (acc : Option Nat)
    (e : DeError) (h : visit_map fields acc = .error e)
    (hne : e ≠ .missingField "bits") :
    visit_map (("bits", tok) :: rest) (some b) =
      .error (.duplicateField "bits") ∧
    visit_map (fields ++ more) acc = .error e :=
  ⟨rfl, visit_map_error_append fields acc e h hne more⟩

/-- Witness for C9: an unreadable duplicate value token still yields the
duplicate-field error, and an unknown-field failure is unchanged by a
well-formed `bits` field appended after it. -/
theorem first_offense_determines_outcome_witness :
    visit_map [("bits", ValueTok.bad "unreadable")] (some 3) =
      .error (.duplicateField "bits") ∧
    visit_map ([("extra", ValueTok.val 0)] ++ [("bits", ValueTok.val 1)]) none =
      .error (.unknownField "extra" ["bits"]) :=
  first_offense_determines_outcome 3 (ValueTok.bad "unreadable") []
    [("extra", ValueTok.val 0)] [("bits", ValueTok.val 1)] none
    (.unknownField "extra" ["bits"]) rfl (by decide)

/-- C10: decoding never fails because of the integer's value — for every raw
integer representable in the u32 storage width, the visitor applied to the
single-field sequence `[(bits, b)]` succeeds yielding `b`, and `deserialize`
returns `from_bits_retain b`, whatever the record's label and field count. -/
theorem value_never_rejected (b : Nat) (label : String) (n : Nat)
    (h : b < 2 ^ 32) :
    visit_map [("bits", ValueTok.val b)] none = .ok b ∧
    deserialize ⟨label, n, [("bits", ValueTok.val b)]⟩ =
      .ok (from_bits_retain b) :=
  ⟨rfl, rfl⟩

/-- Witness for C10 at the largest u32 value, which sets every bit including
all bits with no assigned flag name. -/
theorem value_never_rejected_witness :
    2 ^ 32 - 1 < 2 ^ 32 ∧
    (visit_map [("bits", ValueTok.val (2 ^ 32 - 1))] none = .ok (2 ^ 32 - 1) ∧
      deserialize ⟨"Flags", 1, [("bits", ValueTok.val (2 ^ 32 - 1))]⟩ =
        .ok (from_bits_retain (2 ^ 32 - 1))) :=
  ⟨by norm_num, value_never_rejected (2 ^ 32 - 1) "Flags" 1 (by norm_num)⟩

end SerdeCompat
